import Mathlib

/-!
Verification development for the spectacles proxy (rust).

The definitions below are shallow embeddings of the program's source:

* `LocalGate` — `src/src/ratelimiter/local.rs` (`LocalRatelimiter`),
* `Route` — `src/src/route.rs` (`make_route`),
* `Models` — `src/src/models.rs` (`ResponseStatus`, `RequestResponse`,
  envelope structs and their serde/msgpack wire shape),
* `Exec` — `src/src/runtime/client.rs` (`do_request`, `handle_message`)
  together with the task wrapper in `src/src/main.rs`.

Machine integers appear as `Nat`; where Rust `usize` arithmetic can
underflow (`size - old_size` in `release`) the embedding models the
resulting panic explicitly.  Fallible Rust functions become `Except`.
-/

deriving instance DecidableEq for Except

namespace Proxy

/-- `RatelimitInfo` from `src/src/ratelimiter.rs`: optional new window
capacity and optional reset delay in milliseconds. -/
structure RatelimitInfo where
  limit : Option Nat
  resetsIn : Option Nat
deriving DecidableEq, Repr

/-- `RatelimitInfo::default()`: both fields absent. -/
def RatelimitInfo.default : RatelimitInfo := ⟨none, none⟩

namespace LocalGate

/-- One bucket of `LocalRatelimiter` (`struct Bucket` in
`src/src/ratelimiter/local.rs`): the semaphore's current permit count,
whether a window timer is currently armed (`new_timeout` is `Some`),
and the atomic `size`.  `Bucket::default()` is one permit, no timer,
size 1. -/
structure Bucket where
  permits : Nat
  timerActive : Bool
  size : Nat
deriving DecidableEq, Repr

/-- `Bucket::default()`. -/
def Bucket.init : Bucket := ⟨1, false, 1⟩

/-- The gate state: the `buckets: RwLock<HashMap<String, Arc<Bucket>>>`
map, as an association list keyed by bucket name. -/
abbrev GateState := List (String × Bucket)

/-- Lookup a bucket by name (the `HashMap::get`). -/
def GateState.find : GateState → String → Option Bucket
  | [], _ => none
  | (k, v) :: t, b => if b = k then some v else GateState.find t b

/-- Replace the bucket stored under an existing key (a no-op on absent
keys; the mutation through the `Arc`). -/
def GateState.set : GateState → String → Bucket → GateState
  | [], _, _ => []
  | (k, v) :: t, b, bk => (if k = b then (k, bk) else (k, v)) :: GateState.set t b bk

/-- `LocalRatelimiter::claim`: `buckets.entry(name).or_default()` inserts a
fresh bucket when absent, then `ready.acquire().forget()` takes one
permit.  The returned flag is `true` when a permit was available (the
caller's future resolves) and `false` when the acquire suspends. -/
def claimStep (s : GateState) (b : String) : GateState × Bool :=
  match s.find b with
  | none =>
    -- fresh bucket has one permit, so the acquire succeeds at once
    ((b, { Bucket.init with permits := 0 }) :: s, true)
  | some bk =>
    if bk.permits = 0 then (s, false)
    else (s.set b { bk with permits := bk.permits - 1 }, true)

/-- Errors out of `LocalRatelimiter::release`: the
`anyhow!("Attempted to release before claim")` early return, and the
panic produced on a capacity shrink, where the `usize` subtraction
`size - old_size` underflows (debug profile) or wraps to a value that
makes `Semaphore::add_permits` exceed the permit maximum (release
profile). -/
inductive ReleaseErr where
  | beforeClaim
  | panicOnShrink
deriving DecidableEq, Repr

/-- `LocalRatelimiter::release` (`src/src/ratelimiter/local.rs:57-131`):
1. look the bucket up; absent ⇒ `Attempted to release before claim`;
2. if no timer is armed, `ready.add_permits(1)` immediately;
3. if `info.resets_in` is set, reschedule the armed timer or spawn a new
   one (either way a timer is armed afterwards);
4. if `info.limit` is set, swap `size` and `add_permits(size - old_size)`
   — a `usize` subtraction that panics when the new size is smaller. -/
def releaseStep (s : GateState) (b : String) (info : RatelimitInfo) :
    Except ReleaseErr GateState :=
  match s.find b with
  | none => .error .beforeClaim
  | some bk =>
    let permits1 := if bk.timerActive then bk.permits else bk.permits + 1
    let timer1 := if info.resetsIn.isSome then true else bk.timerActive
    match info.limit with
    | none => .ok (s.set b { permits := permits1, timerActive := timer1, size := bk.size })
    | some newSize =>
      if newSize < bk.size then .error .panicOnShrink
      else .ok (s.set b
        { permits := permits1 + (newSize - bk.size)
          timerActive := timer1
          size := newSize })

/-- The window timer firing (the `delay` arm of the spawned `select!`
loop): add `size` permits and clear the timer slot.  Affects only an
existing bucket. -/
def fireStep (s : GateState) (b : String) : GateState :=
  match s.find b with
  | none => s
  | some bk => s.set b { bk with permits := bk.permits + bk.size, timerActive := false }

/-- Operations that can be issued against the local gate. -/
inductive Op where
  | claim (b : String)
  | release (b : String) (info : RatelimitInfo)
  | fire (b : String)

/-- Run a sequence of gate operations from a state, also accumulating
the names of buckets on which some `claim` has completed successfully
(returned with a permit). -/
def runOps : GateState → List String → List Op → GateState × List String
  | s, g, [] => (s, g)
  | s, g, .claim b :: rest =>
    let (s', ok) := claimStep s b
    runOps s' (if ok then b :: g else g) rest
  | s, g, .release b info :: rest =>
    match releaseStep s b info with
    | .ok s' => runOps s' g rest
    | .error _ => runOps s g rest
  | s, g, .fire b :: rest => runOps (fireStep s b) g rest

/-- Gate state after a run from the initial (empty) state. -/
def runFrom0 (ops : List Op) : GateState × List String := runOps [] [] ops

end LocalGate

namespace Route

/-- The `pchar` characters uriparse accepts verbatim inside a path
segment: unreserved, sub-delims, `:` and `@`. -/
def isPchar (c : Char) : Bool :=
  c.isAlpha || c.isDigit ||
    c ∈ ['-', '.', '_', '~', '!', '$', '&', '\'', '(', ')', '*', '+', ',', ';', '=', ':', '@']

/-- Hexadecimal digit test (for percent-encodings). -/
def isHexDig (c : Char) : Bool :=
  c.isDigit || ('a' ≤ c && c ≤ 'f') || ('A' ≤ c && c ≤ 'F')

/-- uriparse segment validation (`Segment::try_from`): every character is
a `pchar`, or part of a percent-encoded triple `%XX` with two hex
digits. -/
def validSeg : List Char → Bool
  | [] => true
  | '%' :: a :: b :: rest => isHexDig a && isHexDig b && validSeg rest
  | '%' :: _ => false
  | c :: rest => isPchar c && validSeg rest

/-- Split a character list into the `/`-separated segments, the way
uriparse's path parser segments its input (an empty input is the single
empty segment). -/
def splitSlash : List Char → List (List Char)
  | [] => [[]]
  | c :: rest =>
    if c = '/' then [] :: splitSlash rest
    else
      match splitSlash rest with
      | s :: ss => (c :: s) :: ss
      | [] => [[c]]

/-- Rejoin segments with `/` (how `Path` renders back into a string,
minus the leading slash of an absolute path). -/
def renderSegs : List (List Char) → List Char
  | [] => []
  | [s] => s
  | s :: rest => s ++ '/' :: renderSegs rest

/-- The two ways `make_route` can fail: the `uriparse::PathError`
propagated out of `Path::try_from` by `?`, and the explicit
`RouteError::RelativePath`. -/
inductive RouteErr where
  | relativePath
  | invalidPath
deriving DecidableEq, Repr

/-- Whether a segment list misses the rewriting branch of `make_route`:
either there is no second segment, or the first segment is not one of
the three scoped prefixes. -/
def notScopedOrSingle (segs : List (List Char)) : Bool :=
  match segs with
  | s0 :: _ :: _ =>
    !(s0 = "guilds".data || s0 = "channels".data || s0 = "webhooks".data)
  | _ => true

/-- `make_route` from `src/src/route.rs`: parse the path
(`Path::try_from`, failing on invalid characters), reject non-absolute
paths with `RelativePath`, and when the first segment is `guilds`,
`channels` or `webhooks` and a second segment exists, replace the second
segment with the literal `:id`. -/
def make_route (s : String) : Except RouteErr String :=
  match s.data with
  | '/' :: rest =>
    let segs := splitSlash rest
    if segs.all validSeg then
      match segs with
      | s0 :: _s1 :: tl =>
        if s0 = "guilds".data || s0 = "channels".data || s0 = "webhooks".data then
          .ok ⟨'/' :: renderSegs (s0 :: ":id".data :: tl)⟩
        else .ok ⟨'/' :: renderSegs segs⟩
      | _ => .ok ⟨'/' :: renderSegs segs⟩
    else .error .invalidPath
  | other =>
    if (splitSlash other).all validSeg then .error .relativePath
    else .error .invalidPath

end Route

namespace Models

/-- `ResponseStatus` from `src/src/models.rs` with its stable `u8`
ordinals (`Success=0 … RequestTimeout=8`). -/
inductive ResponseStatus where
  | Success
  | Unknown
  | InvalidRequestFormat
  | InvalidPath
  | InvalidQuery
  | InvalidMethod
  | InvalidHeaders
  | RequestFailure
  | RequestTimeout
deriving DecidableEq, Repr

/-- The wire ordinal of a status (`#[repr(u8)]` + `Serialize_repr`). -/
def ResponseStatus.ord : ResponseStatus → Int
  | .Success => 0
  | .Unknown => 1
  | .InvalidRequestFormat => 2
  | .InvalidPath => 3
  | .InvalidQuery => 4
  | .InvalidMethod => 5
  | .InvalidHeaders => 6
  | .RequestFailure => 7
  | .RequestTimeout => 8

/-- The dynamic error kinds the executor can produce, mirroring the
concrete Rust error types probed by the `e.is::<T>()` chain in
`impl From<&dyn Error> for ResponseStatus` plus the kinds that chain
does not recognise (gate errors, the `RouteError`, ack failures), which
all fall through to `Unknown`. -/
inductive ErrKind where
  | rmpDecode
  | uriPath
  | uriQuery
  | invalidMethod
  | httpBuild
  | reqwestTransport
  | elapsed
  | routeRelative
  | ackFailed
  | gate
  | otherErr
deriving DecidableEq, Repr

/-- A dynamic error value: its concrete type (kind) and the
human-readable `to_string()` rendering. -/
structure ModelError where
  kind : ErrKind
  msg : String
deriving DecidableEq, Repr

/-- `ResponseStatus::from(&dyn Error)` — the `is::<T>` chain in
`src/src/models.rs:72-92`. -/
def classify : ErrKind → ResponseStatus
  | .rmpDecode => .InvalidRequestFormat
  | .uriPath => .InvalidPath
  | .uriQuery => .InvalidQuery
  | .invalidMethod => .InvalidMethod
  | .httpBuild => .InvalidHeaders
  | .reqwestTransport => .RequestFailure
  | .elapsed => .RequestTimeout
  | _ => .Unknown

/-- `RequestResponseBody<T>` (`#[serde(untagged)]`). -/
inductive RequestResponseBody (T : Type) where
  | Ok (t : T)
  | Err (msg : String)
deriving DecidableEq, Repr

/-- `RequestResponse<T>`: the outcome envelope replied on the bus. -/
structure RequestResponse (T : Type) where
  status : ResponseStatus
  body : RequestResponseBody T
deriving DecidableEq, Repr

/-- `impl<T> From<Result<T>> for RequestResponse<T>`
(`src/src/models.rs:107-123`): success wraps the value with `Success`,
failure classifies the error and carries its message. -/
def requestResponseFrom {T : Type} : Except ModelError T → RequestResponse T
  | .ok t => ⟨.Success, .Ok t⟩
  | .error e => ⟨classify e.kind, .Err e.msg⟩

/-- `Duration` as serde serialises it (`secs` + `nanos`). -/
structure RDuration where
  secs : Nat
  nanos : Nat
deriving DecidableEq, Repr

/-- `SerializableHttpRequest` (`src/src/models.rs:11-20`).  Maps are kept
as association lists in entry order. -/
structure SHRequest where
  method : String
  path : String
  query : Option (List (String × String))
  body : Option (List Nat)
  headers : List (String × String)
  timeout : Option RDuration
deriving DecidableEq, Repr

/-- `SerializableHttpResponse` (`src/src/models.rs:38-44`). -/
structure SHResponse where
  status : Nat
  headers : List (String × String)
  url : String
  body : List Nat
deriving DecidableEq, Repr

/-- The MessagePack data model (the self-describing values `rmp_serde`
reads and writes; byte-level width choices are below this level). -/
inductive MP where
  | nil
  | bool (b : Bool)
  | int (n : Int)
  | str (s : String)
  | bin (b : List Nat)
  | arr (l : List MP)
  | map (l : List (MP × MP))

/-- serde `Option`: `None` ⇒ nil, `Some` ⇒ the inner encoding. -/
def encOpt {α : Type} (f : α → MP) : Option α → MP
  | none => .nil
  | some a => f a

/-- Decode a serde `Option`, given a decoder for the inner value. -/
def decOpt {α : Type} (f : MP → Option α) : MP → Option (Option α)
  | .nil => some none
  | v => (f v).map some

/-- A `HashMap<String, String>` encodes as a msgpack map of strings. -/
def encStrMap (l : List (String × String)) : MP :=
  .map (l.map fun p => (.str p.1, .str p.2))

def decStrPair : MP × MP → Option (String × String)
  | (.str k, .str v) => some (k, v)
  | _ => none

def decStrEntries : List (MP × MP) → Option (List (String × String))
  | [] => some []
  | p :: rest => do
    let e ← decStrPair p
    let es ← decStrEntries rest
    pure (e :: es)

def decStrMap : MP → Option (List (String × String))
  | .map l => decStrEntries l
  | _ => none

def decStr : MP → Option String
  | .str s => some s
  | _ => none

def decBin : MP → Option (List Nat)
  | .bin b => some b
  | _ => none

def decNat : MP → Option Nat
  | .int (.ofNat n) => some n
  | _ => none

/-- `Duration` in compact (array) struct representation. -/
def encDur (d : RDuration) : MP := .arr [.int (Int.ofNat d.secs), .int (Int.ofNat d.nanos)]

def decDur : MP → Option RDuration
  | .arr [a, b] => do
    let s ← decNat a
    let n ← decNat b
    pure ⟨s, n⟩
  | _ => none

/-- `rmp_serde::to_vec` of the request envelope: a 6-element array in
field declaration order. -/
def encodeReq (r : SHRequest) : MP :=
  .arr [.str r.method, .str r.path, encOpt encStrMap r.query,
    encOpt (fun b => .bin b) r.body, encStrMap r.headers, encOpt encDur r.timeout]

/-- `rmp_serde::from_slice` of the request envelope. -/
def decodeReq : MP → Option SHRequest
  | .arr [m, p, q, b, h, t] => do
    let method ← decStr m
    let path ← decStr p
    let query ← decOpt decStrMap q
    let body ← decOpt decBin b
    let headers ← decStrMap h
    let timeout ← decOpt decDur t
    pure ⟨method, path, query, body, headers, timeout⟩
  | _ => none

/-- The response envelope: a 4-element array. -/
def encodeResp (r : SHResponse) : MP :=
  .arr [.int (Int.ofNat r.status), encStrMap r.headers, .str r.url, .bin r.body]

def decodeResp : MP → Option SHResponse
  | .arr [s, h, u, b] => do
    let status ← decNat s
    let headers ← decStrMap h
    let url ← decStr u
    let body ← decBin b
    pure ⟨status, headers, url, body⟩
  | _ => none

/-- The untagged `RequestResponseBody`: `Ok` encodes the payload, `Err`
encodes the bare string. -/
def encodeBody (b : RequestResponseBody SHResponse) : MP :=
  match b with
  | .Ok r => encodeResp r
  | .Err s => .str s

/-- Untagged decoding tries the `Ok` payload shape first, then the `Err`
string — exactly serde's first-match-wins order. -/
def decodeBody (v : MP) : Option (RequestResponseBody SHResponse) :=
  match decodeResp v with
  | some r => some (.Ok r)
  | none =>
    match v with
    | .str s => some (.Err s)
    | _ => none

def decodeStatus (v : MP) : Option ResponseStatus :=
  match v with
  | .int 0 => some .Success
  | .int 1 => some .Unknown
  | .int 2 => some .InvalidRequestFormat
  | .int 3 => some .InvalidPath
  | .int 4 => some .InvalidQuery
  | .int 5 => some .InvalidMethod
  | .int 6 => some .InvalidHeaders
  | .int 7 => some .RequestFailure
  | .int 8 => some .RequestTimeout
  | _ => none

/-- The outcome envelope: status ordinal plus untagged body. -/
def encodeOutcome (o : RequestResponse SHResponse) : MP :=
  .arr [.int o.status.ord, encodeBody o.body]

def decodeOutcome : MP → Option (RequestResponse SHResponse)
  | .arr [s, b] => do
    let status ← decodeStatus s
    let body ← decodeBody b
    pure ⟨status, body⟩
  | _ => none

end Models

namespace Exec

open Models

/-- `get_header` + the `From<Result<&Response, E>>` impl in
`src/src/ratelimiter.rs:36-57`, limit branch: `x-ratelimit-limit`
parses as `usize`. -/
def parseLimit (s : String) : Option Nat := s.toNat?

/-- Reset branch: `x-ratelimit-reset-after` parses as `f64` seconds and
is scaled by `(r * 1000.) as u64`.  Modelled as exact decimal
arithmetic truncated to milliseconds; for decimals whose `f64` image
rounds below the written value the last millisecond may differ, which
no claim observes. -/
def parseResetMs (s : String) : Option Nat :=
  match s.splitOn "." with
  | [ip] => ip.toNat?.map (· * 1000)
  | [ip, fp] => do
    let n ← ip.toNat?
    let f ← ((fp ++ "000").take 3).toNat?
    pure (n * 1000 + f)
  | _ => none

/-- `RatelimitInfo::from(res.as_ref())`: on a transport error both
fields are absent (`Self::default()`); on a response the two headers
are read. -/
def infoOfResult : Except ModelError SHResponse → RatelimitInfo
  | .ok r =>
    { limit := (r.headers.lookup "x-ratelimit-limit").bind parseLimit
      resetsIn := (r.headers.lookup "x-ratelimit-reset-after").bind parseResetMs }
  | .error _ => RatelimitInfo.default

/-- Rust's `Ord::min` on `Option<Duration>` (`self.timeout.min(timeout)`
in `handle_message`): `None` orders below `Some`, so the result is
`Some` only when both operands are. -/
def optMin : Option Nat → Option Nat → Option Nat
  | none, _ => none
  | some _, none => none
  | some a, some b => some (min a b)

/-- Observable steps of one message's handling, in execution order:
a successful bus ack, the gate claim call returning (with success flag),
the HTTP execution, the gate release (with the info passed), and the
bus reply (with the outcome envelope). -/
inductive Ev where
  | ack
  | claimRet (ok : Bool)
  | httpExec
  | release (info : RatelimitInfo)
  | reply (r : RequestResponse SHResponse)
deriving DecidableEq, Repr

/-- The environment of one `handle_message` run: everything the
surrounding system decides.  `workDuration` is how long `do_request`
takes relative to the per-request clock; `cutAt` is how many of
`do_request`'s steps have happened when an expiring timeout cancels
it. -/
structure ExecInput where
  dataPresent : Bool
  serverTimeout : Option Nat
  requestTimeout : Option Nat
  ack1Ok : Bool
  ack2Ok : Bool
  claimRes : Except ModelError Unit
  httpRes : Except ModelError SHResponse
  releaseRes : Except ModelError Unit
  workDuration : Nat
  cutAt : Nat

def ackErr : ModelError := ⟨.ackFailed, "unable to ack message"⟩

def elapsedErr : ModelError := ⟨.elapsed, "deadline has elapsed"⟩

/-- `Client::do_request` (`src/src/runtime/client.rs:102-158`): await
the claim, ack the message (even when the claim failed; an ack failure
propagates first), then `?` on the claim, execute the HTTP call,
release the bucket with info extracted from the result, `?` on the
release, then `?` on the HTTP result. -/
def doRequestRun (i : ExecInput) :
    List Ev × Except ModelError SHResponse :=
  match i.claimRes with
  | .error ce =>
    if i.ack2Ok then ([.claimRet false, .ack], .error ce)
    else ([.claimRet false], .error ackErr)
  | .ok _ =>
    if i.ack2Ok then
      let es := [.claimRet true, .ack, .httpExec, .release (infoOfResult i.httpRes)]
      match i.releaseRes with
      | .error re => (es, .error re)
      | .ok _ => (es, i.httpRes)
    else ([.claimRet true], .error ackErr)

/-- Whether the `time::timeout` wrapper fires: a bound exists only when
`optMin` yields `Some`, and it fires when the work outlasts it. -/
def expiredFlag (i : ExecInput) : Bool :=
  match optMin i.serverTimeout i.requestTimeout with
  | some t => decide (t < i.workDuration)
  | none => false

/-- `Client::handle_message` (`src/src/runtime/client.rs:192-232`):
ack the message first; a missing body returns `Ok` with no reply; then
run `do_request`, under `time::timeout` when `self.timeout.min(timeout)`
is `Some`.  An expired timeout propagates the `Elapsed` error with `?`
— no reply is sent.  Otherwise the outcome (success or error) is
wrapped by `RequestResponse::from` and replied.  Returns the emitted
events, the reply if one was sent, and `handle_message`'s result. -/
def hmRun (i : ExecInput) :
    List Ev × Option (RequestResponse SHResponse) × Except ModelError Unit :=
  if i.ack1Ok then
    if i.dataPresent then
      let dr := doRequestRun i
      if expiredFlag i then
        (Ev.ack :: dr.1.take i.cutAt, none, .error elapsedErr)
      else
        (Ev.ack :: dr.1, some (requestResponseFrom dr.2), .ok ())
    else ([.ack], none, .ok ())
  else ([], none, .error ackErr)

/-- The full observable event list of a run: the reply, when sent, is
the final step. -/
def hmEvents (i : ExecInput) : List Ev :=
  (hmRun i).1 ++ ((hmRun i).2.1.elim [] fun r => [.reply r])

/-- `handle_message`'s returned `Result`. -/
def hmResult (i : ExecInput) : Except ModelError Unit := (hmRun i).2.2

/-- Cancellation via the `select!` in `src/src/main.rs:106-116`: the
task is dropped at a suspension point, so only a proper prefix of the
run's events has happened; `none` is an uncancelled run. -/
def taskEvents (i : ExecInput) (cancelAt : Option Nat) : List Ev :=
  match cancelAt with
  | none => hmEvents i
  | some k => (hmEvents i).take k

def isReply : Ev → Bool
  | .reply _ => true
  | _ => false

def isRelease : Ev → Bool
  | .release _ => true
  | _ => false

def countReplies (es : List Ev) : Nat := es.countP fun e => isReply e

def countReleases (es : List Ev) : Nat := es.countP fun e => isRelease e

/-- Scan for the claim's ordering property "no ack before a claim
return": every `ack` must be preceded by some `claimRet`. -/
def acksAfterClaimGo : List Ev → Bool → Bool
  | [], _ => true
  | .ack :: rest, seen => seen && acksAfterClaimGo rest seen
  | .claimRet _ :: rest, _ => acksAfterClaimGo rest true
  | _ :: rest, seen => acksAfterClaimGo rest seen

def noAckBeforeClaim (es : List Ev) : Bool := acksAfterClaimGo es false

/-- A plain run: data present, no timeouts, everything succeeds, the
HTTP response is a bare 200. -/
def resp0 : SHResponse := ⟨200, [], "", []⟩

def okInput : ExecInput :=
  { dataPresent := true
    serverTimeout := none
    requestTimeout := none
    ack1Ok := true
    ack2Ok := true
    claimRes := .ok ()
    httpRes := .ok resp0
    releaseRes := .ok ()
    workDuration := 0
    cutAt := 0 }

/-- A run with only the request timeout set (5), whose work takes far
longer (100). -/
def slowReqInput : ExecInput :=
  { okInput with requestTimeout := some 5, workDuration := 100 }

/-- A run with both timeouts set whose effective bound (3) expires after
two of `do_request`'s steps. -/
def expiredInput : ExecInput :=
  { okInput with
    serverTimeout := some 3
    requestTimeout := some 5
    workDuration := 10
    cutAt := 2 }

/-- A run whose message body is missing (`message.data` is `None`). -/
def noDataInput : ExecInput := { okInput with dataPresent := false }

end Exec

end Proxy

/-! ## Theorems

First the helper lemmas about the embedded operations, then one theorem
per specification claim (with counterexamples and witnesses where the
claim called for them). -/

namespace Proxy

namespace Route

theorem splitSlash_slash (rest : List Char) :
    splitSlash ('/' :: rest) = [] :: splitSlash rest := by
  simp [splitSlash]

theorem splitSlash_cons (c : Char) (rest : List Char) (hc : c ≠ '/')
    (s : List Char) (ss : List (List Char)) (h : splitSlash rest = s :: ss) :
    splitSlash (c :: rest) = (c :: s) :: ss := by
  simp [splitSlash, hc, h]

theorem splitSlash_ne_nil (l : List Char) : splitSlash l ≠ [] := by
  induction l with
  | nil => simp [splitSlash]
  | cons c rest ih =>
    by_cases hc : c = '/'
    · subst hc; rw [splitSlash_slash]; simp
    · match h : splitSlash rest with
      | [] => exact absurd h ih
      | s :: ss => rw [splitSlash_cons c rest hc s ss h]; simp

theorem splitSlash_no_slash_append (x b : List Char) (hx : '/' ∉ x) :
    splitSlash (x ++ '/' :: b) = x :: splitSlash b := by
  induction x with
  | nil => simpa using splitSlash_slash b
  | cons c cs ih =>
    have hc : c ≠ '/' := fun h => hx (h ▸ List.mem_cons_self c cs)
    have hcs : '/' ∉ cs := fun h => hx (List.mem_cons_of_mem c h)
    rw [List.cons_append, splitSlash_cons c _ hc _ _ (ih hcs)]

theorem renderSegs_cons (s : List Char) (ss : List (List Char)) (h : ss ≠ []) :
    renderSegs (s :: ss) = s ++ '/' :: renderSegs ss := by
  match ss, h with
  | t :: ts, _ => rfl

theorem renderSegs_splitSlash (l : List Char) : renderSegs (splitSlash l) = l := by
  induction l with
  | nil => rfl
  | cons c rest ih =>
    by_cases hc : c = '/'
    · subst hc
      rw [splitSlash_slash, renderSegs_cons _ _ (splitSlash_ne_nil rest), ih]
      rfl
    · match h : splitSlash rest with
      | [] => exact absurd h (splitSlash_ne_nil rest)
      | s :: ss =>
        rw [splitSlash_cons c rest hc s ss h]
        rw [h] at ih
        cases ss with
        | nil =>
          simp only [renderSegs] at ih ⊢
          rw [ih]
        | cons t ts =>
          rw [renderSegs_cons _ _ (by simp), List.cons_append,
            ← renderSegs_cons _ _ (by simp), ih]

end Route

namespace Models

theorem decStrEntries_enc (l : List (String × String)) :
    decStrEntries (l.map fun p => (MP.str p.1, MP.str p.2)) = some l := by
  induction l with
  | nil => rfl
  | cons p rest ih => simp [decStrEntries, decStrPair, ih]

theorem decStrMap_encStrMap (l : List (String × String)) :
    decStrMap (encStrMap l) = some l := by
  simp [decStrMap, encStrMap, decStrEntries_enc]

end Models

namespace LocalGate

theorem find_set_none (s : GateState) (b : String) (bk : Bucket) (c : String) :
    (s.set b bk).find c = none ↔ s.find c = none := by
  induction s with
  | nil => simp [GateState.set]
  | cons p t ih =>
    obtain ⟨k, v⟩ := p
    by_cases hkb : k = b
    · simp only [GateState.set, if_pos hkb]
      by_cases hck : c = k <;> simp [GateState.find, hck, ih]
    · simp only [GateState.set, if_neg hkb]
      by_cases hck : c = k <;> simp [GateState.find, hck, ih]

theorem releaseStep_ok_shape (s : GateState) (b : String) (info : RatelimitInfo)
    (s' : GateState) (h : releaseStep s b info = .ok s') :
    ∃ bk', s' = s.set b bk' := by
  cases hf : s.find b with
  | none => simp [releaseStep, hf] at h
  | some bk =>
    cases hl : info.limit with
    | none =>
      simp only [releaseStep, hf, hl, Except.ok.injEq] at h
      exact ⟨_, h.symm⟩
    | some n =>
      simp only [releaseStep, hf, hl] at h
      by_cases hs : n < bk.size
      · simp [if_pos hs] at h
      · simp only [if_neg hs, Except.ok.injEq] at h
        exact ⟨_, h.symm⟩

theorem fireStep_domain (s : GateState) (b : String) (c : String) :
    (fireStep s b).find c = none ↔ s.find c = none := by
  unfold fireStep
  cases s.find b with
  | none => simp
  | some bk => exact find_set_none s b _ c

theorem runOps_granted_of_find (ops : List Op) :
    ∀ (s : GateState) (g : List String),
      (∀ b, s.find b ≠ none → b ∈ g) →
      ∀ b, (runOps s g ops).1.find b ≠ none → b ∈ (runOps s g ops).2 := by
  induction ops with
  | nil => intro s g hinv b hb; exact hinv b hb
  | cons op rest ih =>
    intro s g hinv b hb
    match op with
    | .claim b' =>
      rw [runOps] at hb ⊢
      cases hf : s.find b' with
      | none =>
        simp only [claimStep, hf] at hb ⊢
        refine ih _ _ ?_ b hb
        intro c hc
        by_cases hcb : c = b'
        · simp [hcb]
        · refine List.mem_cons_of_mem _ (hinv c ?_)
          simpa [GateState.find, hcb] using hc
      | some bk =>
        by_cases hp : bk.permits = 0
        · simp only [claimStep, hf, hp, if_pos rfl] at hb ⊢
          exact ih _ _ hinv b hb
        · simp only [claimStep, hf, if_neg hp] at hb ⊢
          refine ih _ _ ?_ b hb
          intro c hc
          exact List.mem_cons_of_mem _ (hinv c ((not_iff_not.mpr (find_set_none s b' _ c)).mp hc))
    | .release b' info =>
      rw [runOps] at hb ⊢
      cases hr : releaseStep s b' info with
      | error e =>
        simp only [hr] at hb ⊢
        exact ih _ _ hinv b hb
      | ok s' =>
        simp only [hr] at hb ⊢
        obtain ⟨bk', hshape⟩ := releaseStep_ok_shape s b' info s' hr
        refine ih _ _ ?_ b hb
        intro c hc
        refine hinv c ?_
        rw [hshape] at hc
        exact (not_iff_not.mpr (find_set_none s b' bk' c)).mp hc
    | .fire b' =>
      rw [runOps] at hb ⊢
      refine ih _ _ ?_ b hb
      intro c hc
      exact hinv c ((not_iff_not.mpr (fireStep_domain s b' c)).mp hc)

theorem runFrom0_granted_of_find (ops : List Op) (b : String)
    (h : (runFrom0 ops).1.find b ≠ none) : b ∈ (runFrom0 ops).2 :=
  runOps_granted_of_find ops [] [] (by intro b hb; simp [GateState.find] at hb) b h

end LocalGate

open LocalGate in
/-- C3: after any sequence of gate operations in which no `claim(b)` has
completed successfully, `release(b, info)` fails with the
`Attempted to release before claim` error, and running that release
leaves the gate state (and grant history) unchanged. -/
theorem c3_release_without_claim (ops : List Op) (b : String)
    (info : RatelimitInfo) (h : b ∉ (runFrom0 ops).2) :
    releaseStep (runFrom0 ops).1 b info = .error .beforeClaim ∧
    runOps (runFrom0 ops).1 (runFrom0 ops).2 [.release b info] = runFrom0 ops := by
  have hfind : (runFrom0 ops).1.find b = none := by
    by_contra hne
    exact h (runFrom0_granted_of_find ops b hne)
  have herr : releaseStep (runFrom0 ops).1 b info = .error .beforeClaim := by
    simp [releaseStep, hfind]
  exact ⟨herr, by simp [runOps, herr]⟩

open LocalGate in
/-- Witness for C3 at a concrete trace: after a single `claim("a")`, a
release of the never-claimed bucket `"b"` errors and changes nothing. -/
theorem c3_witness :
    "b" ∉ (runFrom0 [.claim "a"]).2 ∧
    (releaseStep (runFrom0 [.claim "a"]).1 "b" ⟨none, none⟩ = .error .beforeClaim ∧
      runOps (runFrom0 [.claim "a"]).1 (runFrom0 [.claim "a"]).2
        [.release "b" ⟨none, none⟩] = runFrom0 [.claim "a"]) :=
  ⟨by decide, c3_release_without_claim [.claim "a"] "b" ⟨none, none⟩ (by decide)⟩

open LocalGate in
/-- C4 (the failing input): grow bucket `"b"` to capacity 2, then
release with `info.limit = 1`.  The bucket really has size 2 at that
point, and the shrink makes `release` panic (the `usize` subtraction
`size - old_size` underflows), instead of succeeding with only future
windows shrunk as the claim states. -/
theorem c4_shrink_panics :
    (runFrom0 [.claim "b", .release "b" ⟨some 2, none⟩]).1.find "b" =
      some ⟨2, false, 2⟩ ∧
    releaseStep (runFrom0 [.claim "b", .release "b" ⟨some 2, none⟩]).1
      "b" ⟨some 1, none⟩ = .error .panicOnShrink := by decide

open LocalGate in
/-- C9: a non-panicking `release(b, info)` on an existing bucket adds
exactly one permit immediately when no window timer is armed — even
when `info.resets_in` is about to arm one — and none when a timer is
armed, beyond the capacity difference contributed by `info.limit`. -/
theorem c9_immediate_permit_iff_no_timer (s : GateState) (b : String)
    (info : RatelimitInfo) (bk : Bucket)
    (hfind : s.find b = some bk)
    (hnoshrink : ∀ n, info.limit = some n → bk.size ≤ n) :
    releaseStep s b info = .ok (s.set b
      { permits := (if bk.timerActive then bk.permits else bk.permits + 1)
          + ((info.limit.map fun n => n - bk.size).getD 0)
        timerActive := info.resetsIn.isSome || bk.timerActive
        size := info.limit.getD bk.size }) := by
  cases hl : info.limit with
  | none =>
    cases hr : info.resetsIn with
    | none => simp [releaseStep, hfind, hl, hr]
    | some t => simp [releaseStep, hfind, hl, hr]
  | some n =>
    have hs : ¬ n < bk.size := not_lt.mpr (hnoshrink n hl)
    cases hr : info.resetsIn with
    | none => simp [releaseStep, hfind, hl, hr, hs]
    | some t => simp [releaseStep, hfind, hl, hr, hs]

open LocalGate in
/-- Witness for C9: a timerless bucket of size 1 with 3 permits,
released with `limit = 2` and `resets_in = 500`, gains the immediate
permit plus the capacity difference and ends with an armed timer. -/
theorem c9_witness :
    releaseStep [("b", ⟨3, false, 1⟩)] "b" ⟨some 2, some 500⟩ =
      .ok [("b", ⟨5, true, 2⟩)] := by
  have h := c9_immediate_permit_iff_no_timer [("b", ⟨3, false, 1⟩)] "b"
    ⟨some 2, some 500⟩ ⟨3, false, 1⟩ rfl
    (by intro n hn; cases hn; decide)
  exact h.trans (by decide)

namespace Route

theorem make_route_scoped_core (seg x rest : List Char)
    (hseg : seg = "guilds".data ∨ seg = "channels".data ∨ seg = "webhooks".data)
    (hx : '/' ∉ x) (hvx : validSeg x = true)
    (hvrest : (splitSlash rest).all validSeg = true) :
    make_route ⟨'/' :: (seg ++ '/' :: (x ++ '/' :: rest))⟩ =
      .ok ⟨'/' :: (seg ++ '/' :: (':' :: 'i' :: 'd' :: '/' :: rest))⟩ := by
  have hslash : '/' ∉ seg := by
    rcases hseg with h | h | h <;> subst h <;> decide
  have hvseg : validSeg seg = true := by
    rcases hseg with h | h | h <;> subst h <;> decide
  have hsplit : splitSlash (seg ++ '/' :: (x ++ '/' :: rest)) =
      seg :: x :: splitSlash rest := by
    rw [splitSlash_no_slash_append _ _ hslash, splitSlash_no_slash_append _ _ hx]
  have hbranch : (seg = "guilds".data || seg = "channels".data ||
      seg = "webhooks".data) = true := by
    rcases hseg with h | h | h <;> simp [h]
  have hrender : renderSegs (seg :: (':' :: 'i' :: 'd' :: []) :: splitSlash rest) =
      seg ++ '/' :: (':' :: 'i' :: 'd' :: '/' :: rest) := by
    rw [renderSegs_cons _ _ (by simp),
      renderSegs_cons _ _ (splitSlash_ne_nil rest), renderSegs_splitSlash]
    simp
  simp only [make_route, hsplit, List.all_cons, hvseg, hvx, hvrest,
    Bool.and_self, Bool.true_and]
  rw [if_pos hbranch]
  exact congrArg Except.ok (congrArg String.mk (congrArg (List.cons '/') hrender))

end Route

open Route in
/-- C5 counterexample: the claimed template rewrite fails for an id
containing a slash — `x := "a/b"`, `rest := "c"` gives
`/guilds/:id/b/c`, not `/guilds/:id/c` — and a syntactically invalid
relative path fails with the path-parse error, so `RelativePath` is not
the only error kind. -/
theorem c5_counterexample :
    make_route "/guilds/a/b/c" = .ok "/guilds/:id/b/c" ∧
    ("/guilds/:id/b/c" : String) ≠ "/guilds/:id/" ++ "c" ∧
    make_route "a b" = .error .invalidPath := by decide

open Route in
/-- C5 amended: `make_route` rewrites `"/" ++ seg ++ "/" ++ x ++ "/" ++
rest` to `"/" ++ seg ++ "/:id/" ++ rest` for a scoped first segment when
`x` is a single valid segment (no `/`, valid characters) and `rest`
splits into valid segments; any other absolute path with valid segments
is returned unchanged; valid relative paths fail with `RelativePath`;
and invalid characters fail with the path-parse error instead. -/
theorem c5_amended :
    (∀ seg x rest : String,
      (seg = "guilds" ∨ seg = "channels" ∨ seg = "webhooks") →
      '/' ∉ x.data → validSeg x.data = true →
      (splitSlash rest.data).all validSeg = true →
      make_route ("/" ++ seg ++ "/" ++ x ++ "/" ++ rest) =
        .ok ("/" ++ seg ++ "/:id/" ++ rest)) ∧
    (∀ (s : String) (l : List Char), s.data = '/' :: l →
      (splitSlash l).all validSeg = true →
      notScopedOrSingle (splitSlash l) = true →
      make_route s = .ok s) ∧
    (∀ s : String, s.data.head? ≠ some '/' →
      (splitSlash s.data).all validSeg = true →
      make_route s = .error .relativePath) ∧
    make_route "/a b" = .error .invalidPath := by
  refine ⟨?_, ?_, ?_, by decide⟩
  · intro seg x rest hseg hx hvx hvrest
    have hdata : ("/" ++ seg ++ "/" ++ x ++ "/" ++ rest).data =
        '/' :: (seg.data ++ '/' :: (x.data ++ '/' :: rest.data)) := by
      simp [String.data_append]
    have hdata2 : ("/" ++ seg ++ "/:id/" ++ rest).data =
        '/' :: (seg.data ++ '/' :: (':' :: 'i' :: 'd' :: '/' :: rest.data)) := by
      simp [String.data_append]
    have hseg' : seg.data = "guilds".data ∨ seg.data = "channels".data ∨
        seg.data = "webhooks".data := by
      rcases hseg with h | h | h <;> subst h <;> simp
    have hcore := make_route_scoped_core seg.data x.data rest.data hseg' hx hvx hvrest
    have e1 : ("/" ++ seg ++ "/" ++ x ++ "/" ++ rest) =
        (⟨'/' :: (seg.data ++ '/' :: (x.data ++ '/' :: rest.data))⟩ : String) :=
      congrArg String.mk hdata
    have e2 : ("/" ++ seg ++ "/:id/" ++ rest) =
        (⟨'/' :: (seg.data ++ '/' :: (':' :: 'i' :: 'd' :: '/' :: rest.data))⟩ : String) :=
      congrArg String.mk hdata2
    rw [e1, e2, hcore]
  · intro s l hsl hv hns
    have hmk : s = (⟨'/' :: l⟩ : String) := congrArg String.mk hsl
    subst hmk
    cases hsp : splitSlash l with
    | nil => exact absurd hsp (splitSlash_ne_nil l)
    | cons s0 ss =>
      rw [hsp] at hv hns
      have hren : renderSegs (s0 :: ss) = l := by
        have h2 := renderSegs_splitSlash l
        rw [hsp] at h2
        exact h2
      cases ss with
      | nil => simp [make_route, hsp, hv, hren]
      | cons s1 tl =>
        have hcond : (s0 = "guilds".data || s0 = "channels".data ||
            s0 = "webhooks".data) = false := by
          simpa [notScopedOrSingle] using hns
        simp [make_route, hsp, hv, hcond, hren]
  · intro s hhead hv
    cases hd : s.data with
    | nil =>
      have hmk : s = (⟨[]⟩ : String) := congrArg String.mk hd
      subst hmk
      decide
    | cons c t =>
      have hc : c ≠ '/' := by
        intro hc
        exact hhead (by simp [hd, hc])
      have hmk : s = (⟨c :: t⟩ : String) := congrArg String.mk hd
      subst hmk
      rw [hd] at hv
      simp only [make_route]
      split
      · rename_i heq
        exact absurd (List.head_eq_of_cons_eq heq) hc
      · rw [if_pos hv]

open Route in
/-- Witness for C5's amended statement at the spec's own test vectors:
the happy rewrite, an untouched path, and a relative path. -/
theorem c5_witness :
    make_route "/guilds/123/roles" = .ok "/guilds/:id/roles" ∧
    make_route "/foo/bar" = .ok "/foo/bar" ∧
    make_route "relative/path" = .error .relativePath := by
  have h := c5_amended
  refine ⟨?_, ?_, ?_⟩
  · have := h.1 "guilds" "123" "roles" (Or.inl rfl) (by decide) (by decide) (by decide)
    rwa [show ("/" ++ "guilds" ++ "/" ++ "123" ++ "/" ++ "roles" : String) =
      "/guilds/123/roles" by rfl,
      show ("/" ++ "guilds" ++ "/:id/" ++ "roles" : String) = "/guilds/:id/roles" by rfl]
      at this
  · exact h.2.1 "/foo/bar" "foo/bar".data rfl (by decide) (by decide)
  · exact h.2.2.1 "relative/path" (by decide) (by decide)

namespace Models

theorem decodeResp_encodeResp (r : SHResponse) :
    decodeResp (encodeResp r) = some r := by
  obtain ⟨st, h, u, b⟩ := r
  simp [encodeResp, decodeResp, decNat, decStr, decBin, decStrMap,
    decStrEntries_enc, encStrMap]

theorem decodeStatus_ord (st : ResponseStatus) :
    decodeStatus (.int st.ord) = some st := by
  cases st <;> rfl

theorem decodeBody_encodeBody (b : RequestResponseBody SHResponse) :
    decodeBody (encodeBody b) = some b := by
  cases b with
  | Ok r => simp [encodeBody, decodeBody, decodeResp_encodeResp]
  | Err s => rfl

end Models

open Models in
/-- C7: the outcome envelope built from an execution result pairs
`Success` with `Ok(response)` on success, and on failure pairs the
status classified from the error's kind with `Err` of the error's
message; no failing result is ever labelled `Success`. -/
theorem c7_outcome_envelope (T : Type) :
    (∀ t : T, requestResponseFrom (.ok t) =
      ⟨ResponseStatus.Success, .Ok t⟩) ∧
    (∀ e : ModelError, @requestResponseFrom T (.error e) =
      ⟨classify e.kind, .Err e.msg⟩) ∧
    (∀ e : ModelError, classify e.kind ≠ .Success) := by
  refine ⟨fun t => rfl, fun e => rfl, fun e => ?_⟩
  obtain ⟨k, m⟩ := e
  cases k <;> simp [classify]

open Models in
/-- Witness for C7 at `T := Nat` with a transport error. -/
theorem c7_witness :
    requestResponseFrom (.ok (0 : Nat)) = ⟨.Success, .Ok 0⟩ ∧
    @requestResponseFrom Nat (.error ⟨.reqwestTransport, "connection reset"⟩) =
      ⟨.RequestFailure, .Err "connection reset"⟩ ∧
    classify ErrKind.reqwestTransport ≠ .Success := by
  have h := c7_outcome_envelope Nat
  exact ⟨h.1 0,
    (h.2.1 ⟨.reqwestTransport, "connection reset"⟩).trans (by decide),
    h.2.2 ⟨.reqwestTransport, "connection reset"⟩⟩

open Models in
/-- C8: the msgpack wire round-trip is the identity on the request
envelope for every combination of present and absent `query`, `body`,
`headers` and `timeout`, and on the outcome envelope for both `Ok` and
`Err` bodies. -/
theorem c8_roundtrip :
    (∀ r : SHRequest, decodeReq (encodeReq r) = some r) ∧
    (∀ o : RequestResponse SHResponse, decodeOutcome (encodeOutcome o) = some o) := by
  constructor
  · intro r
    obtain ⟨m, p, q, b, h, t⟩ := r
    cases q <;> cases b <;> cases t <;>
      simp [encodeReq, decodeReq, decStr, decStrMap, decStrEntries_enc, encOpt,
        decOpt, decBin, decDur, decNat, encDur, encStrMap]
  · intro o
    obtain ⟨st, b⟩ := o
    simp [encodeOutcome, decodeOutcome, decodeStatus_ord, decodeBody_encodeBody]

namespace Exec

open Models

theorem countReplies_doRequest (i : ExecInput) :
    countReplies (doRequestRun i).1 = 0 := by
  unfold doRequestRun
  cases i.claimRes with
  | error ce =>
    cases hack : i.ack2Ok <;> simp [countReplies, isReply]
  | ok u =>
    cases hack : i.ack2Ok
    · simp [countReplies, isReply]
    · cases i.releaseRes <;> simp [countReplies, isReply]

theorem countReplies_take_zero (es : List Ev) (k : Nat)
    (h : countReplies es = 0) : countReplies (es.take k) = 0 := by
  have hle := List.Sublist.countP_le (fun e => isReply e) (List.take_sublist k es)
  unfold countReplies at h ⊢
  omega

theorem countReplies_take_of_last (core : List Ev) (r : RequestResponse Models.SHResponse)
    (k : Nat) (hc : countReplies core = 0)
    (hk : k < (core ++ [Ev.reply r]).length) :
    countReplies ((core ++ [Ev.reply r]).take k) = 0 := by
  have hk' : k ≤ core.length := by
    simp only [List.length_append, List.length_cons, List.length_nil] at hk
    omega
  rw [List.take_append_eq_append_take, Nat.sub_eq_zero_of_le hk']
  simp only [List.take_zero, List.append_nil]
  exact countReplies_take_zero core k hc

end Exec

open Exec in
/-- C1 counterexample: on the plain successful run, the message is
replied to, yet the event trace opens with an ack that precedes the
claim's return (the unconditional `message.ack()` at the top of
`handle_message`), so "ack never before claim returns" fails. -/
theorem c1_counterexample :
    countReplies (taskEvents okInput none) = 1 ∧
    noAckBeforeClaim (taskEvents okInput none) = false := by decide

open Exec in
/-- C1 amended: in every replied run (message acked, body present,
effective timeout not expired — the code replies an envelope, error or
success, on all of these) the trace begins with the unconditional
`handle_message` ack followed by the claim's return, so an
acknowledgement always precedes the claim.  When the claim and the
in-`do_request` ack both succeed, that second ack sits strictly after
the claim's return and strictly before the HTTP call; when the claim
fails, the second ack (if it succeeds) is still sent but no HTTP call
happens; when the second ack fails, the run replies the ack error with
no HTTP call and no further ack. -/
theorem c1_amended_ack_order (i : ExecInput)
    (h1 : i.ack1Ok = true) (h2 : i.dataPresent = true)
    (h5 : expiredFlag i = false) :
    (∃ ok rest, hmEvents i = Ev.ack :: Ev.claimRet ok :: rest) ∧
    (i.claimRes = .ok () → i.ack2Ok = true →
      hmEvents i =
        [.ack, .claimRet true, .ack, .httpExec,
          .release (infoOfResult i.httpRes),
          .reply (Models.requestResponseFrom (doRequestRun i).2)]) ∧
    (∀ e, i.claimRes = .error e → i.ack2Ok = true →
      hmEvents i =
        [.ack, .claimRet false, .ack,
          .reply (Models.requestResponseFrom (.error e))]) ∧
    (i.ack2Ok = false →
      ∃ ok, hmEvents i =
        [.ack, .claimRet ok,
          .reply (Models.requestResponseFrom (.error ackErr))]) := by
  have hOkTrue : i.claimRes = .ok () → i.ack2Ok = true →
      hmEvents i =
        [.ack, .claimRet true, .ack, .httpExec,
          .release (infoOfResult i.httpRes),
          .reply (Models.requestResponseFrom (doRequestRun i).2)] := by
    intro h3 h4
    cases hrel : i.releaseRes <;>
      simp [hmEvents, hmRun, doRequestRun, h1, h2, h3, h4, h5, hrel]
  have hErrTrue : ∀ e, i.claimRes = .error e → i.ack2Ok = true →
      hmEvents i =
        [.ack, .claimRet false, .ack,
          .reply (Models.requestResponseFrom (.error e))] := by
    intro e he h4
    simp [hmEvents, hmRun, doRequestRun, h1, h2, h5, he, h4]
  have hAckFalse : i.ack2Ok = false →
      ∃ ok, hmEvents i =
        [.ack, .claimRet ok,
          .reply (Models.requestResponseFrom (.error ackErr))] := by
    intro h4
    cases hc : i.claimRes with
    | ok u =>
      exact ⟨true, by simp [hmEvents, hmRun, doRequestRun, h1, h2, h5, hc, h4]⟩
    | error e =>
      exact ⟨false, by simp [hmEvents, hmRun, doRequestRun, h1, h2, h5, hc, h4]⟩
  refine ⟨?_, hOkTrue, hErrTrue, hAckFalse⟩
  cases hc : i.claimRes with
  | ok u =>
    cases u
    cases ha : i.ack2Ok
    · obtain ⟨ok, heq⟩ := hAckFalse ha
      exact ⟨ok, _, heq⟩
    · exact ⟨true, _, hOkTrue hc ha⟩
  | error e =>
    cases ha : i.ack2Ok
    · obtain ⟨ok, heq⟩ := hAckFalse ha
      exact ⟨ok, _, heq⟩
    · exact ⟨false, _, hErrTrue e hc ha⟩

open Exec in
/-- Witness for C1's amended statement on the plain successful run. -/
theorem c1_witness :
    expiredFlag okInput = false ∧
    hmEvents okInput =
      [.ack, .claimRet true, .ack, .httpExec, .release ⟨none, none⟩,
        .reply ⟨.Success, .Ok resp0⟩] := by
  have h := c1_amended_ack_order okInput rfl rfl (by decide)
  exact ⟨by decide, (h.2.1 rfl rfl).trans (by decide)⟩

open Exec in
/-- C2 counterexample: with only the request timeout set (5) and work
lasting 100, the code applies no bound at all (`Option::min` with
`None < Some`): the run completes and the only reply carries `Success`,
not `RequestTimeout`. -/
theorem c2_counterexample :
    slowReqInput.serverTimeout = none ∧
    slowReqInput.requestTimeout = some 5 ∧
    5 < slowReqInput.workDuration ∧
    hmResult slowReqInput = .ok () ∧
    hmEvents slowReqInput =
      [.ack, .claimRet true, .ack, .httpExec, .release ⟨none, none⟩,
        .reply ⟨.Success, .Ok resp0⟩] := by decide

open Exec in
/-- C2 amended: the executor bounds `do_request` by
`min(server.timeout, request.timeout)` only when both are set (the
`Option` ordering makes the min `None` whenever either side is);
on expiry `handle_message` propagates the `Elapsed` error — classified
`RequestTimeout` by the status mapping — and sends no reply. -/
theorem c2_amended_effective_timeout :
    (∀ a b : Nat, optMin (some a) (some b) = some (min a b)) ∧
    (∀ x : Option Nat, optMin none x = none) ∧
    (∀ x : Option Nat, optMin x none = none) ∧
    (∀ i : ExecInput, i.ack1Ok = true → i.dataPresent = true →
      expiredFlag i = true →
      hmResult i = .error elapsedErr ∧
      countReplies (hmEvents i) = 0 ∧
      Models.classify .elapsed = .RequestTimeout) ∧
    (∀ i : ExecInput, expiredFlag i = true ↔
      ∃ s r, i.serverTimeout = some s ∧ i.requestTimeout = some r ∧
        min s r < i.workDuration) := by
  refine ⟨fun a b => rfl, fun x => rfl, fun x => ?_, ?_, ?_⟩
  · cases x <;> rfl
  · intro i h1 h2 hexp
    refine ⟨?_, ?_, rfl⟩
    · simp [hmResult, hmRun, h1, h2, hexp]
    · have h0 := countReplies_doRequest i
      simp [hmEvents, hmRun, h1, h2, hexp, countReplies, isReply,
        List.countP_cons]
      have := countReplies_take_zero (doRequestRun i).1 i.cutAt h0
      simpa [countReplies] using this
  · intro i
    unfold expiredFlag optMin
    cases hs : i.serverTimeout with
    | none => simp
    | some s =>
      cases hr : i.requestTimeout with
      | none => simp
      | some r => simp

open Exec in
/-- Witness for C2's amended statement: both timeouts set (3 and 5),
work lasting 10 — the bound 3 applies, the run errors with the elapsed
error, and no reply is sent. -/
theorem c2_witness :
    optMin (some 3) (some 5) = some 3 ∧
    expiredFlag expiredInput = true ∧
    hmResult expiredInput = .error elapsedErr ∧
    countReplies (hmEvents expiredInput) = 0 ∧
    Models.classify .elapsed = .RequestTimeout := by
  have h := c2_amended_effective_timeout
  have h4 := h.2.2.2.1 expiredInput rfl rfl (by decide)
  exact ⟨(h.1 3 5).trans (by decide), by decide, h4.1, h4.2.1, h4.2.2⟩

open Exec in
/-- C6 counterexample: a message whose body is missing is acknowledged
(the unconditional ack), never replied to, and `handle_message` still
returns `Ok` — an acked, uncancelled message with no reply. -/
theorem c6_counterexample :
    Ev.ack ∈ hmEvents noDataInput ∧
    countReplies (hmEvents noDataInput) = 0 ∧
    hmResult noDataInput = .ok () := by decide

open Exec in
/-- C6 amended: an uncancelled run replies exactly once precisely when
the ack succeeded, the body was present and the effective timeout did
not expire (missing data and expiry produce no reply), and a run
cancelled strictly before completion never contains a reply. -/
theorem c6_amended_reply_accounting (i : ExecInput) :
    countReplies (hmEvents i) =
      (if i.ack1Ok && i.dataPresent && !expiredFlag i then 1 else 0) ∧
    (∀ k, k < (hmEvents i).length →
      countReplies (taskEvents i (some k)) = 0) := by
  cases h1 : i.ack1Ok
  · constructor
    · simp [hmEvents, hmRun, h1, countReplies]
    · intro k hk
      simp [hmEvents, hmRun, h1] at hk
  · cases h2 : i.dataPresent
    · constructor
      · simp [hmEvents, hmRun, h1, h2, countReplies, isReply]
      · intro k hk
        simp only [hmEvents, hmRun, h1, h2] at hk ⊢
        simp at hk
        subst hk
        simp [taskEvents, hmEvents, hmRun, h1, h2, countReplies]
    · cases hexp : expiredFlag i
      · have h0 := countReplies_doRequest i
        have hshape : hmEvents i = (Ev.ack :: (doRequestRun i).1) ++
            [.reply (Models.requestResponseFrom (doRequestRun i).2)] := by
          simp [hmEvents, hmRun, h1, h2, hexp]
        have hcore : countReplies (Ev.ack :: (doRequestRun i).1) = 0 := by
          simpa [countReplies, isReply, List.countP_cons] using h0
        constructor
        · rw [hshape]
          simp [countReplies, List.countP_append, isReply] at hcore ⊢
          simpa [countReplies] using hcore
        · intro k hk
          rw [hshape] at hk
          simpa [taskEvents, hshape] using
            countReplies_take_of_last _ _ k hcore hk
      · have h0 := countReplies_doRequest i
        constructor
        · simp [hmEvents, hmRun, h1, h2, hexp, countReplies, isReply,
            List.countP_cons]
          have := countReplies_take_zero (doRequestRun i).1 i.cutAt h0
          simpa [countReplies] using this
        · intro k hk
          have hz : countReplies (hmEvents i) = 0 := by
            simp [hmEvents, hmRun, h1, h2, hexp, countReplies, isReply,
              List.countP_cons]
            have := countReplies_take_zero (doRequestRun i).1 i.cutAt h0
            simpa [countReplies] using this
          simpa [taskEvents] using countReplies_take_zero (hmEvents i) k hz

open Exec in
/-- Witness for C6's amended statement: the plain run replies once, and
cancelling it after three events leaves no reply. -/
theorem c6_witness :
    countReplies (hmEvents okInput) = 1 ∧
    countReplies (taskEvents okInput (some 3)) = 0 := by
  have h := c6_amended_reply_accounting okInput
  exact ⟨h.1.trans (by decide), h.2 3 (by decide)⟩

open Exec LocalGate in
/-- C10: once the claim and its following ack succeed, `do_request`
emits exactly one release, placed directly after the HTTP execution and
before any error is propagated; on a transport error the released info
is `RatelimitInfo::default()` (both fields `None`), and releasing a
timerless bucket with that info returns exactly one permit
immediately. -/
theorem c10_release_exactly_once (i : ExecInput)
    (h3 : i.claimRes = .ok ()) (h4 : i.ack2Ok = true) :
    (doRequestRun i).1 =
      [.claimRet true, .ack, .httpExec, .release (infoOfResult i.httpRes)] ∧
    countReleases (doRequestRun i).1 = 1 ∧
    (∀ e : Models.ModelError, i.httpRes = .error e →
      infoOfResult i.httpRes = RatelimitInfo.default) ∧
    (∀ (s : GateState) (b : String) (bk : Bucket),
      s.find b = some bk → bk.timerActive = false →
      releaseStep s b RatelimitInfo.default =
        .ok (s.set b { bk with permits := bk.permits + 1 })) := by
  refine ⟨?_, ?_, ?_, ?_⟩
  · cases hrel : i.releaseRes <;> simp [doRequestRun, h3, h4, hrel]
  · cases hrel : i.releaseRes <;>
      simp [doRequestRun, h3, h4, hrel, countReleases, isRelease, List.countP_cons]
  · intro e he
    simp [infoOfResult, he]
  · intro s b bk hf ht
    simp [releaseStep, hf, RatelimitInfo.default, ht]

open Exec LocalGate in
/-- Witness for C10 on the plain run and a concrete timerless bucket. -/
theorem c10_witness :
    (doRequestRun okInput).1 =
      [.claimRet true, .ack, .httpExec, .release ⟨none, none⟩] ∧
    releaseStep [("b", ⟨0, false, 1⟩)] "b" RatelimitInfo.default =
      .ok [("b", ⟨1, false, 1⟩)] := by
  have h := c10_release_exactly_once okInput rfl rfl
  exact ⟨h.1.trans (by decide),
    (h.2.2.2 [("b", ⟨0, false, 1⟩)] "b" ⟨0, false, 1⟩ rfl rfl).trans (by decide)⟩

end Proxy
